import Mathlib

/-
Verification of the SelfDrivingCar obstacle-avoidance stack.

The repository ships the HC-SR04 range-sensing firmware
(src/arduino/hc_sr04_serial/hc_sr04_serial.ino); that firmware is embedded
here directly.  The arbitration controller itself (Link Manager, Range
Debouncer, Occupancy Tracker, Arbitration Engine, Control Loop) is described
by the design document but its source is not part of the repository, so the
corresponding definitions below are modelled from the specification text;
each such definition says so in its doc comment.
-/

namespace SelfDrivingCar

/-! ## Range-sensing firmware (src/arduino/hc_sr04_serial/hc_sr04_serial.ino) -/

/-- `PULSE_TIMEOUT_US` from the firmware: the `pulseIn` timeout in
microseconds (about 5 m of round trip). -/
def PULSE_TIMEOUT_US : Nat := 30000

/-- `MEASURE_INTERVAL_MS` from the firmware: delay between measurements. -/
def MEASURE_INTERVAL_MS : Nat := 50

/-- `measure_cm` from the firmware, as a function of the echo pulse duration
returned by `pulseIn` (0 on timeout, otherwise the pulse length in
microseconds, never exceeding the timeout).  A zero duration yields 0
("timeout / out of range"); otherwise the distance is `duration / 58`
with C unsigned integer division. -/
def measure_cm (duration : Nat) : Nat :=
  if duration = 0 then 0 else duration / 58

/-! ## Data model (spec section 3) -/

inductive ConnectionState
  | DISCONNECTED
  | CONNECTING
  | CONNECTED
  | STALE
deriving DecidableEq

inductive RangeState
  | UNKNOWN
  | GO
  | SLOW
  | STOP
  | FAILSAFE
deriving DecidableEq

inductive TurnDecision
  | LEFT
  | RIGHT
  | STRAIGHT
deriving DecidableEq

inductive Cause
  | FAILSAFE
  | RANGE_GOVERNED
  | VISION_FALLBACK
deriving DecidableEq

/-- A raw distance sample produced by the Link Manager (spec section 3):
`valid = false` when the sensor report is 0 (timeout / out of range). -/
structure RawDistanceSample where
  timestamp : Nat
  distance_cm : Nat
  valid : Bool
deriving DecidableEq

/-- The named configuration thresholds (spec section 3), plus the fixed
per-mode speeds used by the Arbitration Engine. -/
structure Config where
  stop_cm : Nat
  slow_end_cm : Nat
  slow_start_cm : Nat
  slow_floor : ℚ
  debounce_stop_count : Nat
  debounce_go_count : Nat
  link_timeout_ms : Nat
  failsafe_hold_ms : Nat
  history_capacity : Nat
  turn_dwell_ms : Nat
  decay_factor : ℚ
  blocked_threshold : ℚ
  base_speed : ℚ
  fallback_speed : ℚ
  fallback_turn_speed : ℚ
  max_steering_deg : ℤ
deriving DecidableEq

/-- A concrete configuration with the thresholds of the end-to-end example
(spec section 8): `slow_start_cm = 70`, `slow_end_cm = 40`, `stop_cm = 30`,
floor 0, `base_speed = 100`. -/
def cfg0 : Config :=
  { stop_cm := 30, slow_end_cm := 40, slow_start_cm := 70,
    slow_floor := 0, debounce_stop_count := 2, debounce_go_count := 3,
    link_timeout_ms := 200, failsafe_hold_ms := 500,
    history_capacity := 5, turn_dwell_ms := 1000,
    decay_factor := 1/2, blocked_threshold := 1/2, base_speed := 100,
    fallback_speed := 40, fallback_turn_speed := 25,
    max_steering_deg := 30 }

/-! ## Link Manager (spec section 4.1) -/

/-- Decimal reading of a line of characters: `some` of the value when every
character is a digit (and the line is non-empty), `none` otherwise. -/
def readDecimal : Nat → List Char → Option Nat
  | acc, [] => some acc
  | acc, c :: cs =>
    if '0' ≤ c ∧ c ≤ '9' then readDecimal (10 * acc + (c.toNat - '0'.toNat)) cs
    else none

/-- Modelled from the spec: Link Manager line handling (section 4.1); the
Link Manager source is not in the repository.  Each received line is parsed
to an integer; non-parsable lines are discarded (`none`); a parsed reading
becomes a sample, with `valid = false` exactly when the reading is 0
("no echo" protocol message). -/
def parse_line (now : Nat) (line : List Char) : Option RawDistanceSample :=
  match line with
  | [] => none
  | _ :: _ =>
    match readDecimal 0 line with
    | some n => some { timestamp := now, distance_cm := n, valid := n != 0 }
    | none => none

/-- Modelled from the spec: "Every successful sample resets the stale timer
and sets state CONNECTED" (section 4.1); the Link Manager source is not in
the repository. -/
def linkOnSample (_ : ConnectionState) : ConnectionState :=
  ConnectionState.CONNECTED

/-! ## Range Debouncer (spec section 4.2) -/

/-- Modelled from the spec: progressive speed shaping of the Range Debouncer
(section 4.2); the controller source is not in the repository.
`speed_multiplier(d)` is 1 for `d ≥ slow_start_cm`; the linear interpolation
from 1 down to the configured floor for `slow_end_cm ≤ d < slow_start_cm`;
the floor for `stop_cm ≤ d < slow_end_cm`; and 0 for `d < stop_cm` or an
invalid sample. -/
def speed_multiplier (cfg : Config) (valid : Bool) (d : Nat) : ℚ :=
  if valid = false then 0
  else if cfg.slow_start_cm ≤ d then 1
  else if cfg.slow_end_cm ≤ d then
    cfg.slow_floor + (1 - cfg.slow_floor) *
      (((d : ℚ) - (cfg.slow_end_cm : ℚ)) /
        ((cfg.slow_start_cm : ℚ) - (cfg.slow_end_cm : ℚ)))
  else if cfg.stop_cm ≤ d then cfg.slow_floor
  else 0

/-- Modelled from the spec: band classification of a distance (section 4.2):
strictly below `stop_cm` is the STOP band, below `slow_start_cm` the SLOW
band, otherwise the GO band. -/
def classify (cfg : Config) (d : Nat) : RangeState :=
  if d < cfg.stop_cm then RangeState.STOP
  else if d < cfg.slow_start_cm then RangeState.SLOW
  else RangeState.GO

/-- Modelled from the spec: the debounce threshold for a transition from
`current` to `target` (section 4.2): entering STOP takes
`debounce_stop_count` consecutive qualifying samples, regaining GO takes
`debounce_go_count`; for the intermediate SLOW band the count in the
recovery direction (out of STOP/FAILSAFE) is the slow one and in the safety
direction the fast one. -/
def runThreshold (cfg : Config) (current target : RangeState) : Nat :=
  match target with
  | RangeState.STOP => cfg.debounce_stop_count
  | RangeState.GO => cfg.debounce_go_count
  | _ =>
    if current = RangeState.STOP ∨ current = RangeState.FAILSAFE then
      cfg.debounce_go_count
    else cfg.debounce_stop_count

/-- State of the Range Debouncer: the debounced `range`, the band of the
current run of consecutive valid samples (`runClass`) with its length
(`runLen`), the timestamp of the last valid sample, and the last computed
speed multiplier (the "last good" value held for the arbiter). -/
structure DebouncerState where
  range : RangeState
  runClass : RangeState
  runLen : Nat
  last_valid_ms : Nat
  last_mult : ℚ
deriving DecidableEq

/-- Length of the run of consecutive same-band valid samples once a sample
of band `c` arrives. -/
def nextRunLen (st : DebouncerState) (c : RangeState) : Nat :=
  if st.runClass = c then st.runLen + 1 else 1

/-- The debounced transition: stay when the sample confirms the current
band, switch once the run reaches the debounce threshold, otherwise hold. -/
def nextRange (cfg : Config) (st : DebouncerState) (c : RangeState)
    (len : Nat) : RangeState :=
  if st.range = c then c
  else if runThreshold cfg st.range c ≤ len then c
  else st.range

/-- Modelled from the spec: the Range Debouncer's counter update and
debounced state transition on one sample (section 4.2); the controller
source is not in the repository.  An invalid sample resets the run counter
("counts reset whenever a disqualifying sample interrupts the run") and
holds the debounced state; a valid sample extends or restarts the run of
its band and may trigger a debounced transition. -/
def debCore (cfg : Config) (st : DebouncerState) (s : RawDistanceSample) :
    DebouncerState :=
  if s.valid then
    let c := classify cfg s.distance_cm
    let len := nextRunLen st c
    { range := nextRange cfg st c len, runClass := c, runLen := len,
      last_valid_ms := st.last_valid_ms,
      last_mult := speed_multiplier cfg true s.distance_cm }
  else
    { st with runLen := 0, last_mult := 0 }

/-- The debounce core run over a list of samples. -/
def runDeb (cfg : Config) (st : DebouncerState)
    (ss : List RawDistanceSample) : DebouncerState :=
  ss.foldl (debCore cfg) st

/-- Modelled from the spec: the full Range Debouncer update (section 4.2):
DISCONNECTED/CONNECTING gives UNKNOWN; while CONNECTED or STALE, missing a
valid sample for longer than `failsafe_hold_ms` forces FAILSAFE independent
of the debounce counters; otherwise the debounce core processes the sample. -/
def rangeUpdate (cfg : Config) (conn : ConnectionState) (now : Nat)
    (sample : Option RawDistanceSample) (st : DebouncerState) :
    DebouncerState :=
  if conn = ConnectionState.DISCONNECTED ∨ conn = ConnectionState.CONNECTING then
    { st with range := RangeState.UNKNOWN, runLen := 0 }
  else
    let lv : Nat :=
      match sample with
      | some s => if s.valid then now else st.last_valid_ms
      | none => st.last_valid_ms
    if cfg.failsafe_hold_ms < now - lv then
      { st with range := RangeState.FAILSAFE, runLen := 0, last_valid_ms := lv }
    else
      match sample with
      | some s => { debCore cfg st s with last_valid_ms := lv }
      | none => { st with last_valid_ms := lv }

/-- Modelled from the spec: the multiplier exposed alongside `RangeState`
for the arbiter (section 4.2); FAILSAFE (and a debounced STOP) force it
to 0. -/
def exposedMultiplier (st : DebouncerState) : ℚ :=
  if st.range = RangeState.FAILSAFE ∨ st.range = RangeState.STOP then 0
  else st.last_mult

/-- Walks a sample trace mirroring the debounce counters, checking that
every run of consecutive same-band valid samples either confirms `base` or
stays strictly below the debounce threshold for a transition out of
`base`. -/
def runsBelow (cfg : Config) (base : RangeState) :
    RangeState → Nat → List RawDistanceSample → Bool
  | _, _, [] => true
  | rc, len, s :: ss =>
    if s.valid then
      let c := classify cfg s.distance_cm
      let len2 := if rc = c then len + 1 else 1
      (decide (c = base) || decide (len2 < runThreshold cfg base c)) &&
        runsBelow cfg base c len2 ss
    else runsBelow cfg base rc 0 ss

/-- The initial Range Debouncer state. -/
def initDeb : DebouncerState :=
  { range := RangeState.UNKNOWN, runClass := RangeState.UNKNOWN,
    runLen := 0, last_valid_ms := 0, last_mult := 0 }

/-! ## Occupancy Tracker (spec section 4.3) -/

/-- A vision occupancy frame (spec section 3). -/
structure OccupancyFrame where
  timestamp : Nat
  left_score : ℚ
  center_score : ℚ
  right_score : ℚ
deriving DecidableEq

/-- State of the Occupancy Tracker: the bounded history (newest first), the
currently emitted decision, the last non-STRAIGHT decision, and the end of
its dwell commitment. -/
structure TrackerState where
  history : List OccupancyFrame
  current : TurnDecision
  last_turn : TurnDecision
  committed_until : Nat
deriving DecidableEq

/-- Modelled from the spec: pushing a frame into the fixed-capacity history
ring buffer, evicting the oldest past capacity (section 4.3); the
controller source is not in the repository. -/
def trackerPush (cfg : Config) (f : OccupancyFrame) (st : TrackerState) :
    TrackerState :=
  { st with history := (f :: st.history).take cfg.history_capacity }

/-- Decay-weighted sum of scores, newest first: `Σ score_i * decay^i`. -/
def weighted (decay : ℚ) : List ℚ → ℚ
  | [] => 0
  | x :: xs => x + decay * weighted decay xs

/-- Weighted occupancy of the left column over the history. -/
def weightedLeft (cfg : Config) (st : TrackerState) : ℚ :=
  weighted cfg.decay_factor (st.history.map OccupancyFrame.left_score)

/-- Weighted occupancy of the center column over the history. -/
def weightedCenter (cfg : Config) (st : TrackerState) : ℚ :=
  weighted cfg.decay_factor (st.history.map OccupancyFrame.center_score)

/-- Weighted occupancy of the right column over the history. -/
def weightedRight (cfg : Config) (st : TrackerState) : ℚ :=
  weighted cfg.decay_factor (st.history.map OccupancyFrame.right_score)

/-- Modelled from the spec: the raw turn proposal (section 4.3): a turn
toward the side with the lower weighted occupancy is proposed only while
the center column's weighted occupancy exceeds the blocked threshold;
otherwise STRAIGHT. -/
def proposeTurn (cfg : Config) (st : TrackerState) : TurnDecision :=
  if cfg.blocked_threshold < weightedCenter cfg st then
    if weightedLeft cfg st ≤ weightedRight cfg st then TurnDecision.LEFT
    else TurnDecision.RIGHT
  else TurnDecision.STRAIGHT

/-- Modelled from the spec: the dwell-committed decision (section 4.3); the
controller source is not in the repository.  STRAIGHT is issued immediately
once the center clears; a non-STRAIGHT proposal differing from the last
committed turn is held back while the dwell commitment is active; an
accepted turn renews the commitment to `now + turn_dwell_ms`. -/
def trackerDecide (cfg : Config) (now : Nat) (st : TrackerState) :
    TrackerState × TurnDecision :=
  let p := proposeTurn cfg st
  if p = TurnDecision.STRAIGHT then
    ({ st with current := TurnDecision.STRAIGHT }, TurnDecision.STRAIGHT)
  else if st.last_turn ≠ TurnDecision.STRAIGHT ∧ p ≠ st.last_turn ∧
      now < st.committed_until then
    (st, st.current)
  else
    ({ st with
        current := p
        last_turn := p
        committed_until := now + cfg.turn_dwell_ms }, p)

/-- One Occupancy Tracker step: push the frame, then decide. -/
def trackStep (cfg : Config) (st : TrackerState)
    (inp : Nat × OccupancyFrame) : TrackerState × TurnDecision :=
  trackerDecide cfg inp.1 (trackerPush cfg inp.2 st)

/-- The Occupancy Tracker run over a list of timed frames. -/
def runTracker (cfg : Config) (st : TrackerState)
    (inps : List (Nat × OccupancyFrame)) : TrackerState :=
  inps.foldl (fun s i => (trackStep cfg s i).1) st

/-- The initial Occupancy Tracker state. -/
def initTrk : TrackerState :=
  { history := [], current := TurnDecision.STRAIGHT,
    last_turn := TurnDecision.STRAIGHT, committed_until := 0 }

/-! ## Arbitration Engine and Control Loop (spec sections 4.4, 4.5) -/

/-- The final command (spec section 3). -/
structure ControlCommand where
  speed_pct : ℤ
  steering_deg : ℤ
  reason : Cause
deriving DecidableEq

/-- The turn decision mapped to a steering angle. -/
def steeringOf (cfg : Config) (t : TurnDecision) : ℤ :=
  match t with
  | TurnDecision.LEFT => -cfg.max_steering_deg
  | TurnDecision.RIGHT => cfg.max_steering_deg
  | TurnDecision.STRAIGHT => 0

/-- Range sensing is present exactly while the link is CONNECTED or STALE
(spec section 4.4: "`link_connected == true`, i.e. not
DISCONNECTED/UNKNOWN"). -/
def linkConnected : ConnectionState → Bool
  | ConnectionState.CONNECTED => true
  | ConnectionState.STALE => true
  | _ => false

/-- Modelled from the spec: the Arbitration Engine's strict priority rules
(section 4.4); the controller source is not in the repository.
FAILSAFE dominates (speed 0, steering STRAIGHT, vision ignored); with range
sensing present the speed is `base_speed` scaled by the range multiplier and
vision only steers; without range sensing vision alone governs both, at a
conservatively capped speed that is lower while turning. -/
def arbitrate (cfg : Config) (range_state : RangeState) (mult : ℚ)
    (turn : TurnDecision) (link_connected : Bool) : ControlCommand :=
  if range_state = RangeState.FAILSAFE then
    { speed_pct := 0, steering_deg := 0, reason := Cause.FAILSAFE }
  else if link_connected then
    { speed_pct := round (cfg.base_speed * mult),
      steering_deg := steeringOf cfg turn,
      reason := Cause.RANGE_GOVERNED }
  else
    { speed_pct :=
        round (if turn = TurnDecision.STRAIGHT then cfg.fallback_speed
          else cfg.fallback_turn_speed),
      steering_deg := steeringOf cfg turn,
      reason := Cause.VISION_FALLBACK }

/-- State carried by the Control Loop across ticks. -/
structure LoopState where
  deb : DebouncerState
  trk : TrackerState
deriving DecidableEq

/-- Modelled from the spec: one Control Loop tick (section 4.5); the
controller source is not in the repository.  The tick reads the latest
mailbox contents (each possibly absent), feeds the Range Debouncer and the
Occupancy Tracker, and invokes the Arbitration Engine. -/
def tick (cfg : Config) (st : LoopState) (now : Nat)
    (conn : ConnectionState) (sample : Option RawDistanceSample)
    (frame : Option OccupancyFrame) : LoopState × ControlCommand :=
  let trk1 :=
    match frame with
    | some f => trackerPush cfg f st.trk
    | none => st.trk
  let td := trackerDecide cfg now trk1
  let deb2 := rangeUpdate cfg conn now sample st.deb
  let cmd := arbitrate cfg deb2.range (exposedMultiplier deb2) td.2
    (linkConnected conn)
  ({ deb := deb2, trk := td.1 }, cmd)

/-- The initial Control Loop state. -/
def initLoop : LoopState := { deb := initDeb, trk := initTrk }

/-- The Control Loop run over a list of tick inputs, collecting the emitted
commands. -/
def runLoop (cfg : Config) (st : LoopState) :
    List (Nat × ConnectionState × Option RawDistanceSample ×
      Option OccupancyFrame) → List ControlCommand
  | [] => []
  | i :: is =>
    let r := tick cfg st i.1 i.2.1 i.2.2.1 i.2.2.2
    r.2 :: runLoop cfg r.1 is

/-- A clear occupancy frame at time `t` (center not blocked). -/
def clearFrame (t : Nat) : OccupancyFrame :=
  { timestamp := t, left_score := 0, center_score := 0, right_score := 0 }

/-- A valid distance sample at time `t`. -/
def sampleAt (t d : Nat) : RawDistanceSample :=
  { timestamp := t, distance_cm := d, valid := true }

/-- The end-to-end example run of the spec (section 8): distances
[80, 75, 65, 55, 45, 35, 25] delivered every 50 ms on a connected link with
the center occupancy clear throughout. -/
def demoInputs : List (Nat × ConnectionState × Option RawDistanceSample ×
    Option OccupancyFrame) :=
  [(0, ConnectionState.CONNECTED, some (sampleAt 0 80), some (clearFrame 0)),
   (50, ConnectionState.CONNECTED, some (sampleAt 50 75), some (clearFrame 50)),
   (100, ConnectionState.CONNECTED, some (sampleAt 100 65), some (clearFrame 100)),
   (150, ConnectionState.CONNECTED, some (sampleAt 150 55), some (clearFrame 150)),
   (200, ConnectionState.CONNECTED, some (sampleAt 200 45), some (clearFrame 200)),
   (250, ConnectionState.CONNECTED, some (sampleAt 250 35), some (clearFrame 250)),
   (300, ConnectionState.CONNECTED, some (sampleAt 300 25), some (clearFrame 300))]

/-- A configuration whose tracker weights reduce to plain sums (decay 0)
and whose blocked threshold is 0, used for concrete tracker runs. -/
def cfgT : Config := { cfg0 with decay_factor := 0, blocked_threshold := 0 }

/-- A debouncer state resting in GO after a run of clear samples. -/
def debGO : DebouncerState :=
  { range := RangeState.GO, runClass := RangeState.GO, runLen := 1,
    last_valid_ms := 50, last_mult := 1 }

/-- A frame with the center blocked and the left side clear. -/
def blockedLeftClear : OccupancyFrame :=
  { timestamp := 0, left_score := 0, center_score := 1, right_score := 1 }

/-- A frame with the center blocked and the right side clear. -/
def blockedRightClear : OccupancyFrame :=
  { timestamp := 0, left_score := 1, center_score := 1, right_score := 0 }

/-! ## Speed-multiplier lemmas -/

lemma sm_invalid (cfg : Config) (d : Nat) :
    speed_multiplier cfg false d = 0 := by
  simp [speed_multiplier]

lemma sm_ge_start (cfg : Config) {d : Nat} (h : cfg.slow_start_cm ≤ d) :
    speed_multiplier cfg true d = 1 := by
  simp [speed_multiplier, h]

lemma sm_band (cfg : Config) {d : Nat} (h1 : cfg.slow_end_cm ≤ d)
    (h2 : ¬ cfg.slow_start_cm ≤ d) :
    speed_multiplier cfg true d =
      cfg.slow_floor + (1 - cfg.slow_floor) *
        (((d : ℚ) - (cfg.slow_end_cm : ℚ)) /
          ((cfg.slow_start_cm : ℚ) - (cfg.slow_end_cm : ℚ))) := by
  simp [speed_multiplier, h1, h2]

lemma sm_plateau (cfg : Config) {d : Nat} (h0 : cfg.stop_cm ≤ d)
    (h1 : ¬ cfg.slow_end_cm ≤ d) (h2 : ¬ cfg.slow_start_cm ≤ d) :
    speed_multiplier cfg true d = cfg.slow_floor := by
  simp [speed_multiplier, h0, h1, h2]

lemma sm_below_stop (cfg : Config) {d : Nat}
    (h1 : cfg.stop_cm < cfg.slow_end_cm) (h2 : cfg.slow_end_cm < cfg.slow_start_cm)
    (h : d < cfg.stop_cm) :
    speed_multiplier cfg true d = 0 := by
  have e1 : ¬ cfg.slow_start_cm ≤ d := by omega
  have e2 : ¬ cfg.slow_end_cm ≤ d := by omega
  have e3 : ¬ cfg.stop_cm ≤ d := by omega
  simp [speed_multiplier, e1, e2, e3]

lemma band_ratio_nonneg (cfg : Config) {d : Nat}
    (hss : cfg.slow_end_cm < cfg.slow_start_cm) (h1 : cfg.slow_end_cm ≤ d) :
    0 ≤ ((d : ℚ) - (cfg.slow_end_cm : ℚ)) /
        ((cfg.slow_start_cm : ℚ) - (cfg.slow_end_cm : ℚ)) := by
  apply div_nonneg
  · have : (cfg.slow_end_cm : ℚ) ≤ (d : ℚ) := by exact_mod_cast h1
    linarith
  · have : (cfg.slow_end_cm : ℚ) < (cfg.slow_start_cm : ℚ) := by exact_mod_cast hss
    linarith

lemma band_ratio_le_one (cfg : Config) {d : Nat}
    (hss : cfg.slow_end_cm < cfg.slow_start_cm) (h2 : ¬ cfg.slow_start_cm ≤ d) :
    ((d : ℚ) - (cfg.slow_end_cm : ℚ)) /
        ((cfg.slow_start_cm : ℚ) - (cfg.slow_end_cm : ℚ)) ≤ 1 := by
  have hden : (0:ℚ) < (cfg.slow_start_cm : ℚ) - (cfg.slow_end_cm : ℚ) := by
    have : (cfg.slow_end_cm : ℚ) < (cfg.slow_start_cm : ℚ) := by exact_mod_cast hss
    linarith
  rw [div_le_one hden]
  have : (d : ℚ) < (cfg.slow_start_cm : ℚ) := by
    exact_mod_cast Nat.lt_of_not_le h2
  linarith

/-- Pointwise monotonicity of the speed multiplier in the distance. -/
lemma speed_multiplier_mono (cfg : Config)
    (h1 : cfg.stop_cm < cfg.slow_end_cm) (h2 : cfg.slow_end_cm < cfg.slow_start_cm)
    (h3 : 0 ≤ cfg.slow_floor) (h4 : cfg.slow_floor ≤ 1)
    (d1 d2 : Nat) (h : d1 ≤ d2) :
    speed_multiplier cfg true d1 ≤ speed_multiplier cfg true d2 := by
  have hden : (0:ℚ) < (cfg.slow_start_cm : ℚ) - (cfg.slow_end_cm : ℚ) := by
    have : (cfg.slow_end_cm : ℚ) < (cfg.slow_start_cm : ℚ) := by exact_mod_cast h2
    linarith
  by_cases a1 : cfg.slow_start_cm ≤ d1
  · have a2 : cfg.slow_start_cm ≤ d2 := le_trans a1 h
    rw [sm_ge_start cfg a1, sm_ge_start cfg a2]
  · by_cases b1 : cfg.slow_end_cm ≤ d1
    · by_cases a2 : cfg.slow_start_cm ≤ d2
      · rw [sm_band cfg b1 a1, sm_ge_start cfg a2]
        have hr := band_ratio_le_one cfg h2 a1 (d := d1)
        have hm := mul_le_mul_of_nonneg_left hr
          (by linarith : (0:ℚ) ≤ 1 - cfg.slow_floor)
        rw [mul_one] at hm
        linarith
      · have b2 : cfg.slow_end_cm ≤ d2 := le_trans b1 h
        rw [sm_band cfg b1 a1, sm_band cfg b2 a2]
        have hq : (d1 : ℚ) ≤ (d2 : ℚ) := by exact_mod_cast h
        have hr : ((d1 : ℚ) - (cfg.slow_end_cm : ℚ)) /
              ((cfg.slow_start_cm : ℚ) - (cfg.slow_end_cm : ℚ)) ≤
            ((d2 : ℚ) - (cfg.slow_end_cm : ℚ)) /
              ((cfg.slow_start_cm : ℚ) - (cfg.slow_end_cm : ℚ)) :=
          (div_le_div_iff_of_pos_right hden).mpr (by linarith)
        have hm := mul_le_mul_of_nonneg_left hr
          (by linarith : (0:ℚ) ≤ 1 - cfg.slow_floor)
        linarith
    · by_cases c1 : cfg.stop_cm ≤ d1
      · rw [sm_plateau cfg c1 b1 a1]
        by_cases a2 : cfg.slow_start_cm ≤ d2
        · rw [sm_ge_start cfg a2]; exact h4
        · by_cases b2 : cfg.slow_end_cm ≤ d2
          · rw [sm_band cfg b2 a2]
            have hr := band_ratio_nonneg cfg h2 b2
            have hm := mul_nonneg
              (by linarith : (0:ℚ) ≤ 1 - cfg.slow_floor) hr
            linarith
          · have c2 : cfg.stop_cm ≤ d2 := le_trans c1 h
            rw [sm_plateau cfg c2 b2 a2]
      · have hz : speed_multiplier cfg true d1 = 0 :=
          sm_below_stop cfg h1 h2 (Nat.lt_of_not_le c1)
        rw [hz]
        by_cases a2 : cfg.slow_start_cm ≤ d2
        · rw [sm_ge_start cfg a2]; norm_num
        · by_cases b2 : cfg.slow_end_cm ≤ d2
          · rw [sm_band cfg b2 a2]
            have hr := band_ratio_nonneg cfg h2 b2
            have hm := mul_nonneg
              (by linarith : (0:ℚ) ≤ 1 - cfg.slow_floor) hr
            linarith
          · by_cases c2 : cfg.stop_cm ≤ d2
            · rw [sm_plateau cfg c2 b2 a2]; exact h3
            · rw [sm_below_stop cfg h1 h2 (Nat.lt_of_not_le c2)]

/-! ## Debounce-core lemmas -/

lemma runDeb_nil (cfg : Config) (st : DebouncerState) :
    runDeb cfg st [] = st := rfl

lemma runDeb_cons (cfg : Config) (st : DebouncerState) (s : RawDistanceSample)
    (ss : List RawDistanceSample) :
    runDeb cfg st (s :: ss) = runDeb cfg (debCore cfg st s) ss := rfl

lemma runDeb_append (cfg : Config) (st : DebouncerState)
    (l1 l2 : List RawDistanceSample) :
    runDeb cfg st (l1 ++ l2) = runDeb cfg (runDeb cfg st l1) l2 := by
  simp [runDeb, List.foldl_append]

lemma runDeb_concat (cfg : Config) (st : DebouncerState)
    (ss : List RawDistanceSample) (s : RawDistanceSample) :
    runDeb cfg st (ss ++ [s]) = debCore cfg (runDeb cfg st ss) s := by
  rw [runDeb_append]; rfl

lemma debCore_invalid (cfg : Config) (st : DebouncerState)
    {s : RawDistanceSample} (h : s.valid = false) :
    debCore cfg st s = { st with runLen := 0, last_mult := 0 } := by
  simp [debCore, h]

lemma debCore_valid (cfg : Config) (st : DebouncerState)
    {s : RawDistanceSample} (h : s.valid = true) :
    debCore cfg st s =
      { range := nextRange cfg st (classify cfg s.distance_cm)
          (nextRunLen st (classify cfg s.distance_cm)),
        runClass := classify cfg s.distance_cm,
        runLen := nextRunLen st (classify cfg s.distance_cm),
        last_valid_ms := st.last_valid_ms,
        last_mult := speed_multiplier cfg true s.distance_cm } := by
  simp [debCore, h]

/-- One debounce step grows the run length by at most one. -/
lemma debCore_runLen_le (cfg : Config) (st : DebouncerState)
    (s : RawDistanceSample) :
    (debCore cfg st s).runLen ≤ st.runLen + 1 := by
  by_cases h : s.valid = true
  · rw [debCore_valid cfg st h]
    dsimp only [nextRunLen]
    split <;> omega
  · rw [debCore_invalid cfg st (by simpa using h)]
    exact Nat.zero_le _

/-- Over a trace, the run length grows by at most the number of samples. -/
lemma runDeb_runLen_le (cfg : Config) :
    ∀ (ss : List RawDistanceSample) (st : DebouncerState),
      (runDeb cfg st ss).runLen ≤ st.runLen + ss.length := by
  intro ss
  induction ss with
  | nil => intro st; simp [runDeb_nil]
  | cons s ss ih =>
    intro st
    rw [runDeb_cons]
    calc (runDeb cfg (debCore cfg st s) ss).runLen
        ≤ (debCore cfg st s).runLen + ss.length := ih _
      _ ≤ st.runLen + 1 + ss.length := by
          have := debCore_runLen_le cfg st s; omega
      _ = st.runLen + (s :: ss).length := by simp; omega

/-- If after a trace the run counter shows `k` consecutive samples of band
`C`, then the last `k` samples of the trace really are valid samples of
band `C`. -/
lemma runDeb_trailing (cfg : Config) :
    ∀ (ss : List RawDistanceSample) (st : DebouncerState) (C : RangeState)
      (k : Nat), k ≤ ss.length → (runDeb cfg st ss).runClass = C →
      k ≤ (runDeb cfg st ss).runLen →
      ∀ s ∈ ss.drop (ss.length - k),
        s.valid = true ∧ classify cfg s.distance_cm = C := by
  intro ss
  induction ss using List.reverseRecOn with
  | nil =>
    intro st C k hk _ _ s hs
    have hk0 : k = 0 := by simpa using hk
    subst hk0
    simp at hs
  | append_singleton ss s ihs =>
    intro st C k hk hclass hlen x hx
    rw [runDeb_concat] at hclass hlen
    rcases Nat.eq_zero_or_pos k with hk0 | hkpos
    · subst hk0
      rw [Nat.sub_zero, List.drop_length] at hx
      simp at hx
    by_cases hv : s.valid = true
    · rw [debCore_valid cfg _ hv] at hclass hlen
      dsimp only at hclass hlen
      have harith : (ss ++ [s]).length - k = ss.length - (k - 1) := by
        simp; omega
      have hdrop : (ss ++ [s]).drop ((ss ++ [s]).length - k) =
          ss.drop (ss.length - (k - 1)) ++ [s] := by
        rw [harith]
        exact List.drop_append_of_le_length (Nat.sub_le _ _)
      rw [hdrop] at hx
      rcases List.mem_append.mp hx with hx1 | hx2
      · -- x lies in the trailing part of ss
        dsimp only [nextRunLen] at hlen
        by_cases hrc : (runDeb cfg st ss).runClass = classify cfg s.distance_cm
        · rw [if_pos hrc] at hlen
          have hk1 : k - 1 ≤ ss.length := by simp at hk; omega
          have hlen1 : k - 1 ≤ (runDeb cfg st ss).runLen := by omega
          have hcls1 : (runDeb cfg st ss).runClass = C := by
            rw [hrc, hclass]
          exact ihs st C (k - 1) hk1 hcls1 hlen1 x hx1
        · rw [if_neg hrc] at hlen
          have hk1 : k = 1 := by omega
          subst hk1
          simp at hx1
      · have hxe : x = s := by simpa using hx2
        subst hxe
        exact ⟨hv, hclass⟩
    · rw [debCore_invalid cfg _ (by simpa using hv)] at hlen
      dsimp only at hlen
      omega

/-- Entering a band `C` whose debounce threshold is the constant `k`
requires, somewhere in the trace, `k` consecutive valid samples of band
`C`. -/
lemma debEnter (cfg : Config) (C : RangeState) (k : Nat)
    (hthr : ∀ cur, runThreshold cfg cur C = k) :
    ∀ (ss : List RawDistanceSample) (st : DebouncerState),
      st.runLen = 0 → st.range ≠ C → (runDeb cfg st ss).range = C →
      ∃ i, i + k ≤ ss.length ∧
        ∀ s ∈ (ss.drop i).take k,
          s.valid = true ∧ classify cfg s.distance_cm = C := by
  intro ss
  induction ss using List.reverseRecOn with
  | nil =>
    intro st _ hne hfin
    rw [runDeb_nil] at hfin
    exact absurd hfin hne
  | append_singleton ss s ihs =>
    intro st h0 hne hfin
    rw [runDeb_concat] at hfin
    by_cases hmid : (runDeb cfg st ss).range = C
    · obtain ⟨i, hik, hwin⟩ := ihs st h0 hne hmid
      refine ⟨i, by simp; omega, ?_⟩
      have hdrop : (ss ++ [s]).drop i = ss.drop i ++ [s] :=
        List.drop_append_of_le_length (by omega)
      have htake : (ss.drop i ++ [s]).take k = (ss.drop i).take k :=
        List.take_append_of_le_length (by rw [List.length_drop]; omega)
      rw [hdrop, htake]
      exact hwin
    · by_cases hv : s.valid = true
      · rw [debCore_valid cfg _ hv] at hfin
        dsimp only [nextRange] at hfin
        by_cases hcc : (runDeb cfg st ss).range = classify cfg s.distance_cm
        · rw [if_pos hcc] at hfin
          exact absurd (hcc.trans hfin) hmid
        rw [if_neg hcc] at hfin
        by_cases hthr2 : runThreshold cfg (runDeb cfg st ss).range
            (classify cfg s.distance_cm) ≤
            nextRunLen (runDeb cfg st ss) (classify cfg s.distance_cm)
        · rw [if_pos hthr2] at hfin
          -- a debounced transition into C fired at sample s
          have hclsC : classify cfg s.distance_cm = C := hfin
          have hkthr : runThreshold cfg (runDeb cfg st ss).range
              (classify cfg s.distance_cm) = k := by
            rw [hclsC]; exact hthr _
          -- run length at this point is at least k
          have hrunlen : k ≤ (debCore cfg (runDeb cfg st ss) s).runLen := by
            rw [debCore_valid cfg _ hv]
            dsimp only
            rw [← hkthr]
            exact hthr2
          have hbound : (debCore cfg (runDeb cfg st ss) s).runLen ≤
              (ss ++ [s]).length := by
            have h1 := runDeb_runLen_le cfg (ss ++ [s]) st
            rw [runDeb_concat] at h1
            omega
          have hklen : k ≤ (ss ++ [s]).length := le_trans hrunlen hbound
          have hcls2 : (debCore cfg (runDeb cfg st ss) s).runClass = C := by
            rw [debCore_valid cfg _ hv]
            dsimp only
            exact hclsC
          have htrail := runDeb_trailing cfg (ss ++ [s]) st C k hklen
            (by rw [runDeb_concat]; exact hcls2)
            (by rw [runDeb_concat]; exact hrunlen)
          refine ⟨(ss ++ [s]).length - k, by omega, ?_⟩
          intro x hx
          exact htrail x (List.take_subset _ _ hx)
        · rw [if_neg hthr2] at hfin
          exact absurd hfin hmid
      · rw [debCore_invalid cfg _ (by simpa using hv)] at hfin
        dsimp only at hfin
        exact absurd hfin hmid

lemma classify_stop (cfg : Config) {d : Nat} (h : d < cfg.stop_cm) :
    classify cfg d = RangeState.STOP := by
  simp [classify, h]

lemma classify_stop_iff (cfg : Config) (d : Nat) :
    classify cfg d = RangeState.STOP ↔ d < cfg.stop_cm := by
  by_cases h1 : d < cfg.stop_cm
  · simp [classify, h1]
  · by_cases h2 : d < cfg.slow_start_cm <;> simp [classify, h1, h2]

lemma classify_go_iff (cfg : Config) (hso : cfg.stop_cm ≤ cfg.slow_start_cm)
    (d : Nat) : classify cfg d = RangeState.GO ↔ cfg.slow_start_cm ≤ d := by
  by_cases h1 : d < cfg.stop_cm
  · simp only [classify, h1, if_true]
    constructor
    · intro h; cases h
    · omega
  · by_cases h2 : d < cfg.slow_start_cm
    · simp only [classify, h1, if_false, h2, if_true]
      constructor
      · intro h; cases h
      · omega
    · simp only [classify, h1, if_false, h2]
      constructor
      · intro _; omega
      · intro _; trivial

lemma nextRange_ne (cfg : Config) (st : DebouncerState) (c : RangeState)
    (len : Nat) (h : nextRange cfg st c len ≠ c) :
    nextRange cfg st c len = st.range ∧ st.range ≠ c ∧
      ¬ runThreshold cfg st.range c ≤ len := by
  unfold nextRange at h ⊢
  by_cases h1 : st.range = c
  · rw [if_pos h1] at h
    exact absurd rfl h
  · rw [if_neg h1] at h ⊢
    by_cases h2 : runThreshold cfg st.range c ≤ len
    · rw [if_pos h2] at h
      exact absurd rfl h
    · rw [if_neg h2]
      exact ⟨rfl, h1, h2⟩

/-- Once in STOP, a run of valid below-stop samples keeps the state STOP. -/
lemma staysStop (cfg : Config) :
    ∀ (qs : List RawDistanceSample) (st : DebouncerState),
      (∀ s ∈ qs, s.valid = true ∧ s.distance_cm < cfg.stop_cm) →
      st.range = RangeState.STOP →
      (runDeb cfg st qs).range = RangeState.STOP := by
  intro qs
  induction qs with
  | nil => intro st _ h; rw [runDeb_nil]; exact h
  | cons q qs ih =>
    intro st hall hstop
    obtain ⟨hv, hd⟩ := hall q (by simp)
    rw [runDeb_cons]
    apply ih _ (fun s hs => hall s (by simp [hs]))
    rw [debCore_valid cfg st hv]
    dsimp only [nextRange]
    rw [classify_stop cfg hd, if_pos hstop]

/-- Accumulating valid below-stop samples either reaches STOP or keeps
counting without interruption. -/
lemma stopAccum (cfg : Config) :
    ∀ (qs : List RawDistanceSample) (st : DebouncerState),
      (∀ s ∈ qs, s.valid = true ∧ s.distance_cm < cfg.stop_cm) →
      st.runClass = RangeState.STOP → st.runLen < cfg.debounce_stop_count →
      (runDeb cfg st qs).range = RangeState.STOP ∨
      ((runDeb cfg st qs).range = st.range ∧
        (runDeb cfg st qs).runClass = RangeState.STOP ∧
        st.runLen + qs.length ≤ (runDeb cfg st qs).runLen ∧
        (runDeb cfg st qs).runLen < cfg.debounce_stop_count) := by
  intro qs
  induction qs with
  | nil =>
    intro st _ h1 h2
    rw [runDeb_nil]
    exact Or.inr ⟨rfl, h1, by simp, h2⟩
  | cons q qs ih =>
    intro st hall hrc hrl
    obtain ⟨hv, hd⟩ := hall q (by simp)
    rw [runDeb_cons]
    have hst1 : debCore cfg st q =
        { range := nextRange cfg st RangeState.STOP (st.runLen + 1),
          runClass := RangeState.STOP, runLen := st.runLen + 1,
          last_valid_ms := st.last_valid_ms,
          last_mult := speed_multiplier cfg true q.distance_cm } := by
      rw [debCore_valid cfg st hv, classify_stop cfg hd]
      dsimp only [nextRunLen]
      rw [if_pos hrc]
    by_cases hgo : nextRange cfg st RangeState.STOP (st.runLen + 1) =
        RangeState.STOP
    · left
      apply staysStop cfg qs _ (fun s hs => hall s (by simp [hs]))
      rw [hst1]
      exact hgo
    · obtain ⟨heq, _, hlt⟩ := nextRange_ne cfg st RangeState.STOP _ hgo
      have hthr : runThreshold cfg st.range RangeState.STOP =
          cfg.debounce_stop_count := rfl
      rw [hthr] at hlt
      have hrl1 : st.runLen + 1 < cfg.debounce_stop_count := by omega
      have := ih (debCore cfg st q) (fun s hs => hall s (by simp [hs]))
        (by rw [hst1]) (by rw [hst1]; exact hrl1)
      rcases this with h | ⟨ha, hb, hc, he⟩
      · exact Or.inl h
      · refine Or.inr ⟨?_, hb, ?_, he⟩
        · rw [ha, hst1]
          exact heq
        · rw [hst1] at hc
          dsimp only at hc
          rw [hst1]
          simp only [List.length_cons]
          omega

/-- The noise checker is sound: while every run stays below its threshold
(or confirms the current state), the debounced state never changes. -/
lemma runsBelow_sound (cfg : Config) :
    ∀ (ss : List RawDistanceSample) (st : DebouncerState),
      runsBelow cfg st.range st.runClass st.runLen ss = true →
      (runDeb cfg st ss).range = st.range := by
  intro ss
  induction ss with
  | nil => intro st _; rw [runDeb_nil]
  | cons s ss ih =>
    intro st h
    rw [runDeb_cons]
    by_cases hv : s.valid = true
    · rw [runsBelow, hv] at h
      simp only [if_true, Bool.and_eq_true, Bool.or_eq_true,
        decide_eq_true_eq] at h
      obtain ⟨hcheck, hrest⟩ := h
      have hrange : (debCore cfg st s).range = st.range := by
        rw [debCore_valid cfg st hv]
        dsimp only [nextRange]
        by_cases h1 : st.range = classify cfg s.distance_cm
        · rw [if_pos h1]
          exact h1.symm
        · rw [if_neg h1]
          rcases hcheck with h2 | h2
          · exact absurd h2.symm h1
          · rw [if_neg (by dsimp only [nextRunLen]; omega)]
      have hrc : (debCore cfg st s).runClass = classify cfg s.distance_cm := by
        rw [debCore_valid cfg st hv]
      have hrl : (debCore cfg st s).runLen =
          (if st.runClass = classify cfg s.distance_cm then st.runLen + 1
            else 1) := by
        rw [debCore_valid cfg st hv]
        rfl
      have := ih (debCore cfg st s)
        (by rw [hrange, hrc, hrl]; exact hrest)
      rw [this, hrange]
    · have hvf : s.valid = false := by simpa using hv
      rw [runsBelow, hvf] at h
      simp only [Bool.false_eq_true, if_false] at h
      have := ih (debCore cfg st s)
        (by rw [debCore_invalid cfg st hvf]; exact h)
      rw [this, debCore_invalid cfg st hvf]

/-! ## Firmware claims -/

/-- C10: every value returned by `measure_cm` (hence every distance the
firmware prints) is a non-negative integer at most 517: a timed-out pulse
yields 0, and otherwise the pulse duration is bounded by the 30000 us
`PULSE_TIMEOUT_US`, so `duration / 58` never exceeds 517. -/
theorem C10_measure_cm_bounded (duration : Nat)
    (h : duration ≤ PULSE_TIMEOUT_US) : measure_cm duration ≤ 517 := by
  unfold measure_cm
  unfold PULSE_TIMEOUT_US at h
  split
  · exact Nat.zero_le 517
  · calc duration / 58 ≤ 30000 / 58 := Nat.div_le_div_right h
      _ = 517 := by norm_num

theorem C10_measure_cm_bounded_witness : measure_cm 30000 ≤ 517 :=
  C10_measure_cm_bounded 30000 (by decide)

/-- C9: for every echo pulse whose measured duration is between 1 and 57
microseconds (an object closer than about 1 cm), `measure_cm` returns 0 by
integer division `duration / 58` — the same value as a timeout — so a serial
line reading 0 does not uniquely mean "no echo". -/
theorem C9_close_echo_reads_zero (duration : Nat)
    (h1 : 1 ≤ duration) (h2 : duration ≤ 57) :
    measure_cm duration = 0 ∧ measure_cm duration = measure_cm 0 := by
  have hne : duration ≠ 0 := by omega
  have hz : measure_cm duration = 0 := by
    unfold measure_cm
    rw [if_neg hne]
    exact Nat.div_eq_of_lt (by omega)
  exact ⟨hz, by rw [hz]; rfl⟩

theorem C9_close_echo_reads_zero_witness :
    measure_cm 57 = 0 ∧ measure_cm 57 = measure_cm 0 :=
  C9_close_echo_reads_zero 57 (by norm_num) (by norm_num)

/-- C8: a 0-valued serial reading is a valid protocol message meaning
"no echo" (the firmware prints 0 when its echo pulse times out), not a parse
error: the Link Manager maps it to a `RawDistanceSample` with
`valid = false` rather than discarding it, and it is distinguished from
STALE, which means no message arrived at all (any received sample drives the
connection state to CONNECTED, never STALE). -/
theorem C8_zero_reading_is_protocol_message (now : Nat) :
    measure_cm 0 = 0 ∧
    parse_line now ['0'] =
      some { timestamp := now, distance_cm := 0, valid := false } ∧
    (∀ st : ConnectionState,
      linkOnSample st = ConnectionState.CONNECTED ∧
      linkOnSample st ≠ ConnectionState.STALE) := by
  refine ⟨rfl, ?_, fun st => ⟨rfl, by simp [linkOnSample]⟩⟩
  simp [parse_line, readDecimal]

/-! ## Claim C4: shape of the speed multiplier -/

/-- C4: the speed multiplier is 1 at or above `slow_start_cm`, the linear
interpolation from 1 down to the configured floor on the slow band, and 0
strictly below `stop_cm` or for an invalid sample; it is pointwise monotone
in the distance, so along any monotonically decreasing distance sequence
the multiplier sequence is non-increasing, and (with the floor configured
to 0) it is exactly 0 at or below `stop_cm`. -/
theorem C4_speed_multiplier_shape (cfg : Config)
    (h1 : cfg.stop_cm < cfg.slow_end_cm) (h2 : cfg.slow_end_cm < cfg.slow_start_cm)
    (h3 : 0 ≤ cfg.slow_floor) (h4 : cfg.slow_floor ≤ 1) :
    (∀ d, cfg.slow_start_cm ≤ d → speed_multiplier cfg true d = 1) ∧
    (∀ d, cfg.slow_end_cm ≤ d → d < cfg.slow_start_cm →
      speed_multiplier cfg true d =
        cfg.slow_floor + (1 - cfg.slow_floor) *
          (((d : ℚ) - (cfg.slow_end_cm : ℚ)) /
            ((cfg.slow_start_cm : ℚ) - (cfg.slow_end_cm : ℚ)))) ∧
    (∀ d, d < cfg.stop_cm → speed_multiplier cfg true d = 0) ∧
    (∀ d, speed_multiplier cfg false d = 0) ∧
    (∀ d1 d2, d1 ≤ d2 →
      speed_multiplier cfg true d1 ≤ speed_multiplier cfg true d2) ∧
    (∀ f : ℕ → ℕ, (∀ i j, i ≤ j → f j ≤ f i) → ∀ i j, i ≤ j →
      speed_multiplier cfg true (f j) ≤ speed_multiplier cfg true (f i)) ∧
    (cfg.slow_floor = 0 → ∀ d, d ≤ cfg.stop_cm →
      speed_multiplier cfg true d = 0) := by
  refine ⟨fun d hd => sm_ge_start cfg hd,
    fun d hd1 hd2 => sm_band cfg hd1 (Nat.not_le.mpr hd2),
    fun d hd => sm_below_stop cfg h1 h2 hd,
    fun d => sm_invalid cfg d,
    speed_multiplier_mono cfg h1 h2 h3 h4,
    fun f hf i j hij =>
      speed_multiplier_mono cfg h1 h2 h3 h4 (f j) (f i) (hf i j hij),
    fun hfl d hd => ?_⟩
  rcases Nat.lt_or_ge d cfg.stop_cm with hlt | hge
  · exact sm_below_stop cfg h1 h2 hlt
  · have e1 : ¬ cfg.slow_start_cm ≤ d := by omega
    have e2 : ¬ cfg.slow_end_cm ≤ d := by omega
    rw [sm_plateau cfg hge e2 e1, hfl]

theorem C4_speed_multiplier_shape_witness :
    speed_multiplier cfg0 true 35 ≤ speed_multiplier cfg0 true 55 ∧
    speed_multiplier cfg0 true 25 = 0 :=
  ⟨(C4_speed_multiplier_shape cfg0 (by norm_num [cfg0]) (by norm_num [cfg0])
      (by norm_num [cfg0]) (by norm_num [cfg0])).2.2.2.2.1 35 55 (by norm_num),
    (C4_speed_multiplier_shape cfg0 (by norm_num [cfg0]) (by norm_num [cfg0])
      (by norm_num [cfg0]) (by norm_num [cfg0])).2.2.1 25 (by norm_num [cfg0])⟩

/-! ## Claim C3: distance below the stop threshold vs the debounced state -/

/-- C3 counterexample: with `debounce_stop_count = 2`, a single valid sample
strictly below `stop_cm` (25 < 30) arriving while the debounced state is GO
leaves the RangeState at GO — neither STOP nor FAILSAFE — so a tick can
have current distance strictly below the stop threshold while RangeState is
GO. -/
theorem C3_counterexample :
    (rangeUpdate cfg0 ConnectionState.CONNECTED 100 (some (sampleAt 100 25))
        debGO).range = RangeState.GO ∧
    ¬ ((rangeUpdate cfg0 ConnectionState.CONNECTED 100 (some (sampleAt 100 25))
        debGO).range = RangeState.STOP ∨
      (rangeUpdate cfg0 ConnectionState.CONNECTED 100 (some (sampleAt 100 25))
        debGO).range = RangeState.FAILSAFE) ∧
    (sampleAt 100 25).valid = true ∧
    (sampleAt 100 25).distance_cm < cfg0.stop_cm := by
  decide

/-- C3 amended: once the trace ends with at least `debounce_stop_count`
consecutive valid samples strictly below `stop_cm`, the RangeState derived
by the debounce core is STOP (the un-debounced single sample of the original
claim does not suffice; the fail-safe wrapper can only strengthen this to
FAILSAFE). -/
theorem C3_stop_band_after_debounce (cfg : Config)
    (hc : 1 ≤ cfg.debounce_stop_count) (st : DebouncerState)
    (pre qs : List RawDistanceSample)
    (hq : ∀ s ∈ qs, s.valid = true ∧ s.distance_cm < cfg.stop_cm)
    (hlen : cfg.debounce_stop_count ≤ qs.length) :
    (runDeb cfg st (pre ++ qs)).range = RangeState.STOP := by
  rw [runDeb_append]
  rcases qs with _ | ⟨q, qs'⟩
  · simp at hlen
    omega
  obtain ⟨hv, hd⟩ := hq q (by simp)
  rw [runDeb_cons]
  have hcls := classify_stop cfg hd
  have hrc1 : (debCore cfg (runDeb cfg st pre) q).runClass =
      RangeState.STOP := by
    rw [debCore_valid cfg _ hv]
    dsimp only
    exact hcls
  have hrl1ge : 1 ≤ (debCore cfg (runDeb cfg st pre) q).runLen := by
    rw [debCore_valid cfg _ hv]
    dsimp only [nextRunLen]
    split <;> omega
  by_cases hgo : (debCore cfg (runDeb cfg st pre) q).range = RangeState.STOP
  · exact staysStop cfg qs' _ (fun s hs => hq s (by simp [hs])) hgo
  · have hrange1 : (debCore cfg (runDeb cfg st pre) q).range =
        nextRange cfg (runDeb cfg st pre) RangeState.STOP
          (nextRunLen (runDeb cfg st pre) RangeState.STOP) := by
      rw [debCore_valid cfg _ hv]
      dsimp only
      rw [hcls]
    have hgo2 : nextRange cfg (runDeb cfg st pre) RangeState.STOP
        (nextRunLen (runDeb cfg st pre) RangeState.STOP) ≠
        RangeState.STOP := by
      rw [← hrange1]
      exact hgo
    obtain ⟨_, _, hnont⟩ := nextRange_ne cfg _ _ _ hgo2
    have hthr : runThreshold cfg (runDeb cfg st pre).range RangeState.STOP =
        cfg.debounce_stop_count := rfl
    rw [hthr] at hnont
    have hrl1 : (debCore cfg (runDeb cfg st pre) q).runLen =
        nextRunLen (runDeb cfg st pre) RangeState.STOP := by
      rw [debCore_valid cfg _ hv]
      dsimp only
      rw [hcls]
    have hlt : (debCore cfg (runDeb cfg st pre) q).runLen <
        cfg.debounce_stop_count := by omega
    rcases stopAccum cfg qs' (debCore cfg (runDeb cfg st pre) q)
        (fun s hs => hq s (by simp [hs])) hrc1 hlt with h | ⟨_, _, hc2, he⟩
    · exact h
    · simp only [List.length_cons] at hlen
      exact absurd he (by omega)

theorem C3_stop_band_after_debounce_witness :
    (runDeb cfg0 initDeb ([] ++ [sampleAt 0 25, sampleAt 1 25])).range =
      RangeState.STOP :=
  C3_stop_band_after_debounce cfg0 (by decide) initDeb []
    [sampleAt 0 25, sampleAt 1 25] (by decide) (by decide)

/-! ## Claim C5: debounced transitions -/

/-- C5: a transition of the debounced state into STOP happens only after
`debounce_stop_count` consecutive valid samples strictly below `stop_cm`
somewhere in the trace, a transition back to GO only after
`debounce_go_count` consecutive valid samples at or above `slow_start_cm`;
the consecutive counters reset whenever a disqualifying sample (invalid, or
of a different band) interrupts the run; and any sample sequence whose runs
stay strictly below the respective debounce thresholds (the alternating
qualifying/disqualifying noise pattern in particular) leaves the RangeState
unchanged. -/
theorem C5_debounce_transitions (cfg : Config)
    (hso : cfg.stop_cm ≤ cfg.slow_start_cm) :
    (∀ (st : DebouncerState) (ss : List RawDistanceSample),
      st.runLen = 0 → st.range ≠ RangeState.STOP →
      (runDeb cfg st ss).range = RangeState.STOP →
      ∃ i, i + cfg.debounce_stop_count ≤ ss.length ∧
        ∀ s ∈ (ss.drop i).take cfg.debounce_stop_count,
          s.valid = true ∧ s.distance_cm < cfg.stop_cm) ∧
    (∀ (st : DebouncerState) (ss : List RawDistanceSample),
      st.runLen = 0 → st.range ≠ RangeState.GO →
      (runDeb cfg st ss).range = RangeState.GO →
      ∃ i, i + cfg.debounce_go_count ≤ ss.length ∧
        ∀ s ∈ (ss.drop i).take cfg.debounce_go_count,
          s.valid = true ∧ cfg.slow_start_cm ≤ s.distance_cm) ∧
    (∀ (st : DebouncerState) (s : RawDistanceSample),
      (s.valid = false → (debCore cfg st s).runLen = 0) ∧
      (s.valid = true → classify cfg s.distance_cm ≠ st.runClass →
        (debCore cfg st s).runLen = 1)) ∧
    (∀ (st : DebouncerState) (ss : List RawDistanceSample),
      runsBelow cfg st.range st.runClass st.runLen ss = true →
      (runDeb cfg st ss).range = st.range) := by
  refine ⟨?_, ?_, ?_, fun st ss => runsBelow_sound cfg ss st⟩
  · intro st ss h0 hne hfin
    obtain ⟨i, hik, hwin⟩ := debEnter cfg RangeState.STOP
      cfg.debounce_stop_count (fun _ => rfl) ss st h0 hne hfin
    exact ⟨i, hik, fun s hs => ⟨(hwin s hs).1,
      (classify_stop_iff cfg s.distance_cm).mp (hwin s hs).2⟩⟩
  · intro st ss h0 hne hfin
    obtain ⟨i, hik, hwin⟩ := debEnter cfg RangeState.GO
      cfg.debounce_go_count (fun _ => rfl) ss st h0 hne hfin
    exact ⟨i, hik, fun s hs => ⟨(hwin s hs).1,
      (classify_go_iff cfg hso s.distance_cm).mp (hwin s hs).2⟩⟩
  · intro st s
    constructor
    · intro h
      rw [debCore_invalid cfg st h]
    · intro hv hne
      rw [debCore_valid cfg st hv]
      dsimp only [nextRunLen]
      rw [if_neg (fun hcc => hne hcc.symm)]

theorem C5_debounce_transitions_witness :
    (∃ i, i + cfg0.debounce_stop_count ≤
        ([sampleAt 0 25, sampleAt 1 25] : List RawDistanceSample).length ∧
      ∀ s ∈ ((([sampleAt 0 25, sampleAt 1 25] :
          List RawDistanceSample).drop i).take cfg0.debounce_stop_count),
        s.valid = true ∧ s.distance_cm < cfg0.stop_cm) ∧
    (runDeb cfg0 debGO [sampleAt 0 25, sampleAt 1 80, sampleAt 2 25]).range =
      debGO.range :=
  ⟨(C5_debounce_transitions cfg0 (by decide)).1 initDeb
      [sampleAt 0 25, sampleAt 1 25] (by decide) (by decide) (by decide),
    (C5_debounce_transitions cfg0 (by decide)).2.2.2 debGO
      [sampleAt 0 25, sampleAt 1 80, sampleAt 2 25] (by decide)⟩

/-! ## Occupancy Tracker lemmas -/

/-- While the dwell commitment for the turn `d` is active, one tracker step
emits only `d` or STRAIGHT and preserves the commitment. -/
lemma trackStep_dwell (cfg : Config) (d : TurnDecision) (t : Nat)
    (hd : d ≠ TurnDecision.STRAIGHT) (st : TrackerState)
    (h1 : st.last_turn = d)
    (h2 : st.current = d ∨ st.current = TurnDecision.STRAIGHT)
    (h3 : t + cfg.turn_dwell_ms ≤ st.committed_until)
    (u : Nat) (f : OccupancyFrame) (hu1 : t ≤ u)
    (hu2 : u < t + cfg.turn_dwell_ms) :
    ((trackStep cfg st (u, f)).2 = d ∨
      (trackStep cfg st (u, f)).2 = TurnDecision.STRAIGHT) ∧
    (trackStep cfg st (u, f)).1.last_turn = d ∧
    ((trackStep cfg st (u, f)).1.current = d ∨
      (trackStep cfg st (u, f)).1.current = TurnDecision.STRAIGHT) ∧
    t + cfg.turn_dwell_ms ≤ (trackStep cfg st (u, f)).1.committed_until := by
  unfold trackStep trackerDecide
  dsimp only
  by_cases hp : proposeTurn cfg (trackerPush cfg f st) = TurnDecision.STRAIGHT
  · rw [if_pos hp]
    exact ⟨Or.inr rfl, h1, Or.inr rfl, h3⟩
  · rw [if_neg hp]
    by_cases hpd : proposeTurn cfg (trackerPush cfg f st) = d
    · have hcond : ¬ ((trackerPush cfg f st).last_turn ≠
          TurnDecision.STRAIGHT ∧
          proposeTurn cfg (trackerPush cfg f st) ≠
            (trackerPush cfg f st).last_turn ∧
          u < (trackerPush cfg f st).committed_until) := by
        rintro ⟨_, hcb, _⟩
        exact hcb (hpd.trans h1.symm)
      rw [if_neg hcond]
      refine ⟨Or.inl hpd, hpd, Or.inl hpd, ?_⟩
      exact le_trans (Nat.add_le_add_right hu1 _) (le_refl _)
    · have hcond : (trackerPush cfg f st).last_turn ≠
          TurnDecision.STRAIGHT ∧
          proposeTurn cfg (trackerPush cfg f st) ≠
            (trackerPush cfg f st).last_turn ∧
          u < (trackerPush cfg f st).committed_until := by
        refine ⟨?_, ?_, ?_⟩
        · show st.last_turn ≠ TurnDecision.STRAIGHT
          rw [h1]; exact hd
        · show proposeTurn cfg (trackerPush cfg f st) ≠ st.last_turn
          rw [h1]; exact hpd
        · show u < st.committed_until
          omega
      rw [if_pos hcond]
      exact ⟨h2, h1, h2, h3⟩

/-- The dwell invariant is preserved along any run of tracker steps whose
times stay inside the commitment window. -/
lemma trackRun_dwell (cfg : Config) (d : TurnDecision) (t : Nat)
    (hd : d ≠ TurnDecision.STRAIGHT) :
    ∀ (mid : List (Nat × OccupancyFrame)) (st : TrackerState),
      st.last_turn = d →
      (st.current = d ∨ st.current = TurnDecision.STRAIGHT) →
      t + cfg.turn_dwell_ms ≤ st.committed_until →
      (∀ i ∈ mid, t ≤ i.1 ∧ i.1 < t + cfg.turn_dwell_ms) →
      (runTracker cfg st mid).last_turn = d ∧
      ((runTracker cfg st mid).current = d ∨
        (runTracker cfg st mid).current = TurnDecision.STRAIGHT) ∧
      t + cfg.turn_dwell_ms ≤ (runTracker cfg st mid).committed_until := by
  intro mid
  induction mid with
  | nil => intro st h1 h2 h3 _; exact ⟨h1, h2, h3⟩
  | cons i mid ih =>
    intro st h1 h2 h3 hmid
    obtain ⟨hi1, hi2⟩ := hmid i (by simp)
    have hstep := trackStep_dwell cfg d t hd st h1 h2 h3 i.1 i.2 hi1 hi2
    exact ih _ hstep.2.1 hstep.2.2.1 hstep.2.2.2
      (fun j hj => hmid j (by simp [hj]))

/-! ## Claim C6: turn dwell -/

/-- C6: once the Occupancy Tracker issues a non-STRAIGHT decision `d` at
time `t`, every decision issued before `t + turn_dwell_ms` is either `d`
again or STRAIGHT — never a different turn, whatever occupancy frames
arrive in between — while a STRAIGHT proposal (center clear) is always
issued immediately, dwell or not. -/
theorem C6_turn_dwell (cfg : Config) (st0 : TrackerState) (t : Nat)
    (f : OccupancyFrame) (d : TurnDecision)
    (mid : List (Nat × OccupancyFrame)) (t2 : Nat) (f2 : OccupancyFrame)
    (hp : proposeTurn cfg (trackerPush cfg f st0) = d)
    (hd : d ≠ TurnDecision.STRAIGHT)
    (hfree : st0.last_turn = d ∨ st0.last_turn = TurnDecision.STRAIGHT ∨
      st0.committed_until ≤ t)
    (hmid : ∀ i ∈ mid, t ≤ i.1 ∧ i.1 ≤ t2)
    (ht2a : t ≤ t2) (ht2b : t2 < t + cfg.turn_dwell_ms) :
    (trackStep cfg st0 (t, f)).2 = d ∧
    ((trackStep cfg (runTracker cfg (trackStep cfg st0 (t, f)).1 mid)
        (t2, f2)).2 = d ∨
      (trackStep cfg (runTracker cfg (trackStep cfg st0 (t, f)).1 mid)
        (t2, f2)).2 = TurnDecision.STRAIGHT) ∧
    (∀ (st : TrackerState) (now : Nat) (g : OccupancyFrame),
      proposeTurn cfg (trackerPush cfg g st) = TurnDecision.STRAIGHT →
      (trackStep cfg st (now, g)).2 = TurnDecision.STRAIGHT) := by
  have hnotblocked : ¬ ((trackerPush cfg f st0).last_turn ≠
      TurnDecision.STRAIGHT ∧
      proposeTurn cfg (trackerPush cfg f st0) ≠
        (trackerPush cfg f st0).last_turn ∧
      t < (trackerPush cfg f st0).committed_until) := by
    rintro ⟨hca, hcb, hcc⟩
    rcases hfree with h | h | h
    · exact hcb (by rw [hp]; exact h.symm)
    · exact hca h
    · exact absurd (show t < st0.committed_until from hcc) (by omega)
  have hstep1 : trackStep cfg st0 (t, f) =
      ({ trackerPush cfg f st0 with
          current := proposeTurn cfg (trackerPush cfg f st0)
          last_turn := proposeTurn cfg (trackerPush cfg f st0)
          committed_until := t + cfg.turn_dwell_ms },
        proposeTurn cfg (trackerPush cfg f st0)) := by
    unfold trackStep trackerDecide
    dsimp only
    rw [if_neg (by rw [hp]; exact hd), if_neg hnotblocked]
  refine ⟨by rw [hstep1]; exact hp, ?_, ?_⟩
  · have hInv := trackRun_dwell cfg d t hd mid (trackStep cfg st0 (t, f)).1
      (by rw [hstep1]; exact hp)
      (by rw [hstep1]; exact Or.inl hp)
      (by rw [hstep1])
      (fun j hj => ⟨(hmid j hj).1, lt_of_le_of_lt (hmid j hj).2 ht2b⟩)
    exact (trackStep_dwell cfg d t hd _ hInv.1 hInv.2.1 hInv.2.2
      t2 f2 ht2a ht2b).1
  · intro st now g hps
    unfold trackStep trackerDecide
    dsimp only
    rw [if_pos hps]

theorem C6_turn_dwell_witness :
    (trackStep cfgT initTrk (0, blockedLeftClear)).2 = TurnDecision.LEFT ∧
    ((trackStep cfgT (runTracker cfgT
        (trackStep cfgT initTrk (0, blockedLeftClear)).1 [])
        (500, blockedRightClear)).2 = TurnDecision.LEFT ∨
      (trackStep cfgT (runTracker cfgT
        (trackStep cfgT initTrk (0, blockedLeftClear)).1 [])
        (500, blockedRightClear)).2 = TurnDecision.STRAIGHT) :=
  have h := C6_turn_dwell cfgT initTrk 0 blockedLeftClear TurnDecision.LEFT
    [] 500 blockedRightClear
    (by simp [proposeTurn, trackerPush, initTrk, weightedCenter, weightedLeft,
      weightedRight, weighted, cfgT, blockedLeftClear])
    (by decide) (Or.inr (Or.inl rfl))
    (by intro i hi; simp at hi) (by decide) (by decide)
  ⟨h.1, h.2.1⟩

/-! ## Claim C1: vision never influences speed while range-governed -/

/-- C1: while the link is connected and the range state is not FAILSAFE,
two arbitrations that differ only in the vision-derived turn decision emit
the same `speed_pct` (and two whole ticks that differ only in the occupancy
frame emit the same `speed_pct`); only with the link down can the turn
decision change the emitted speed. -/
theorem C1_vision_cannot_change_speed (cfg : Config) (rs : RangeState)
    (mult : ℚ) (t1 t2 : TurnDecision) (hrs : rs ≠ RangeState.FAILSAFE) :
    (arbitrate cfg rs mult t1 true).speed_pct =
      (arbitrate cfg rs mult t2 true).speed_pct ∧
    (∀ (st : LoopState) (now : Nat) (conn : ConnectionState)
      (sample : Option RawDistanceSample) (f1 f2 : Option OccupancyFrame),
      linkConnected conn = true →
      (tick cfg st now conn sample f1).2.speed_pct =
        (tick cfg st now conn sample f2).2.speed_pct) ∧
    (∃ u1 u2 : TurnDecision,
      (arbitrate cfg0 RangeState.UNKNOWN 1 u1 false).speed_pct ≠
        (arbitrate cfg0 RangeState.UNKNOWN 1 u2 false).speed_pct) := by
  refine ⟨?_, ?_, ?_⟩
  · simp [arbitrate, hrs]
  · intro st now conn sample f1 f2 hl
    by_cases hfs : (rangeUpdate cfg conn now sample st.deb).range =
        RangeState.FAILSAFE
    · simp [tick, arbitrate, hfs]
    · simp [tick, arbitrate, hfs, hl]
  · refine ⟨TurnDecision.STRAIGHT, TurnDecision.LEFT, ?_⟩
    simp [arbitrate, cfg0]

theorem C1_vision_cannot_change_speed_witness :
    (arbitrate cfg0 RangeState.GO 1 TurnDecision.LEFT true).speed_pct =
      (arbitrate cfg0 RangeState.GO 1 TurnDecision.RIGHT true).speed_pct :=
  (C1_vision_cannot_change_speed cfg0 RangeState.GO 1 TurnDecision.LEFT
    TurnDecision.RIGHT (by decide)).1

/-! ## Claim C2: fail-safe escalation dominates -/

/-- C2: while the connection is CONNECTED or STALE, if no valid sample has
been observed for longer than `failsafe_hold_ms` (and the current tick also
brings none), the Range Debouncer yields FAILSAFE with exposed multiplier 0
regardless of its counters, and the tick's command is speed 0, steering
STRAIGHT (0 degrees), reason FAILSAFE, regardless of the vision frame and
tracker state. -/
theorem C2_failsafe_command (cfg : Config) (st : LoopState) (now : Nat)
    (conn : ConnectionState) (sample : Option RawDistanceSample)
    (frame : Option OccupancyFrame)
    (hconn : conn = ConnectionState.CONNECTED ∨ conn = ConnectionState.STALE)
    (hnov : ∀ s, sample = some s → s.valid = false)
    (hhold : cfg.failsafe_hold_ms < now - st.deb.last_valid_ms) :
    (tick cfg st now conn sample frame).1.deb.range = RangeState.FAILSAFE ∧
    exposedMultiplier (tick cfg st now conn sample frame).1.deb = 0 ∧
    (tick cfg st now conn sample frame).2 =
      { speed_pct := 0, steering_deg := 0, reason := Cause.FAILSAFE } := by
  have hnc : ¬ (conn = ConnectionState.DISCONNECTED ∨
      conn = ConnectionState.CONNECTING) := by
    rcases hconn with h | h <;> subst h <;> simp
  have key : rangeUpdate cfg conn now sample st.deb =
      { st.deb with
          range := RangeState.FAILSAFE
          runLen := 0
          last_valid_ms := st.deb.last_valid_ms } := by
    unfold rangeUpdate
    rw [if_neg hnc]
    cases sample with
    | none =>
      dsimp only
      rw [if_pos hhold]
    | some s =>
      have hs := hnov s rfl
      dsimp only
      simp only [hs, Bool.false_eq_true, if_false]
      rw [if_pos hhold]
  refine ⟨?_, ?_, ?_⟩
  · simp only [tick]
    rw [key]
  · simp only [tick]
    rw [key]
    simp [exposedMultiplier]
  · simp only [tick]
    rw [key]
    simp [arbitrate]

theorem C2_failsafe_command_witness :
    (tick cfg0 initLoop 600 ConnectionState.CONNECTED none none).2 =
      { speed_pct := 0, steering_deg := 0, reason := Cause.FAILSAFE } :=
  (C2_failsafe_command cfg0 initLoop 600 ConnectionState.CONNECTED none none
    (Or.inl rfl) (fun s h => by cases h) (by decide)).2.2

/-! ## Claim C7: the end-to-end example -/

/-- C7: with `slow_start_cm = 70`, `slow_end_cm = 40`, `stop_cm = 30` and
`base_speed = 100`, the distance sequence [80, 75, 65, 55, 45, 35, 25]
delivered every 50 ms on a connected link with the center occupancy clear
throughout produces the (rounded) `speed_pct` sequence
[100, 100, 83, 50, 17, 0, 0] with `steering_deg` 0 throughout. -/
theorem C7_end_to_end :
    (runLoop cfg0 initLoop demoInputs).map ControlCommand.speed_pct =
      [100, 100, 83, 50, 17, 0, 0] ∧
    (runLoop cfg0 initLoop demoInputs).map ControlCommand.steering_deg =
      [0, 0, 0, 0, 0, 0, 0] := by
  constructor <;>
    simp [runLoop, tick, demoInputs, cfg0, initLoop, initDeb, initTrk,
      rangeUpdate, debCore, nextRange, nextRunLen, runThreshold, classify,
      exposedMultiplier, speed_multiplier, arbitrate, steeringOf,
      linkConnected, trackerPush, trackerDecide, proposeTurn, weightedCenter,
      weightedLeft, weightedRight, weighted, clearFrame, sampleAt]
  norm_num [round_eq]

end SelfDrivingCar
